import Mathlib

/-!
Verification of the crawl-orchestration core of `src/scraper.py`
(`Scraper.scrape_multiple_pages`, `Scraper.extract`,
`Scraper.extract_listing_details`).

The Python code is shallowly embedded as follows.

* Python dictionaries are association lists (`Dict`) whose lookup
  (`dlookup`) takes the *last* binding for a key, so that successive
  assignments and `\x7b**a, **b\x7d` unpacking (list append) have the same
  observable behaviour as Python dicts.
* The I/O done by Selenium is abstracted into an environment `Env` of
  oracles: `discover i` is the summary list produced by `extract()` on
  list page `i`; `details u n` is the dictionary produced by
  `extract_listing_details` for detail url `u` on its `n`-th attempt;
  `pageFatal` / `detailFatal` mark fetches on which the underlying
  webdriver raises a fatal (uncaught) exception; `locked f` marks csv
  files whose `to_csv` write raises `PermissionError`.
* Csv files on disk are the association list `files` from file names to
  the record lists written, again with last-write-wins lookup
  (`readCsv`), which models `to_csv` overwriting an existing file.
  File names `page{i}.csv` / `page{i}_alt.csv` are represented by the
  pair `FileName` of the page index and an `alt` flag; the f-string
  derivation is injective, so this renaming is faithful.
* The run additionally records a ghost trace of `Event`s (pages
  fetched, detail attempts, cooldown and politeness sleeps, give-ups,
  batch flushes) used to state the temporal claims.
-/

set_option linter.unusedVariables false

/-- Values stored in the record dictionaries: raw strings, the booleans
produced for `is_furnished`, and Python's `None`. -/
inductive Value where
  | vstr (s : String)
  | vbool (b : Bool)
  | vnone
deriving DecidableEq, Repr

/-- A Python dictionary, as the list of its assignments in order. -/
abbrev Dict := List (String × Value)

/-- Lookup in an association list, where a later binding shadows an
earlier one (as reassignment does in a Python dict). -/
def alookup {κ α : Type} [DecidableEq κ] : List (κ × α) → κ → Option α
  | [], _ => none
  | (k1, v) :: rest, k => (alookup rest k).or (if k1 = k then some v else none)

/-- Dictionary lookup (`d.get(k)` / `d[k]`). -/
def dlookup (d : Dict) (k : String) : Option Value := alookup d k

/-- Python truthiness of a `Value` (`if value:`). -/
def vtruthy : Value → Bool
  | .vstr s => s != ""
  | .vbool b => b
  | .vnone => false

/-- Python truthiness of the result of a lookup that may miss. -/
def truthy : Option Value → Bool
  | none => false
  | some v => vtruthy v

/-- Line 427: `full_listing_data = \x7b**listing, **details\x7d` — summary and
detail dictionaries combined, later (detail) keys overriding earlier
(summary) keys under `dlookup`. -/
def mergeRecord (summary details : Dict) : Dict := summary ++ details

/-- The csv file name used for a page's batch: `page = i`, `alt = false`
stands for `page{i}.csv`, `alt = true` for `page{i}_alt.csv` (the
fallback name of line 472). -/
structure FileName where
  page : Nat
  alt : Bool
deriving DecidableEq, Repr

/-- Line 459: `file_name = f"page\x7bindex\x7d.csv"`. -/
def primaryName (index : Nat) : FileName := ⟨index, false⟩

/-- Line 472: `file_name = f"page\x7bindex\x7d_alt.csv"`. -/
def altName (index : Nat) : FileName := ⟨index, true⟩

/-- The disk: csv files already written, in write order. -/
abbrev Files := List (FileName × List Dict)

/-- `pd.read_csv`: the content of the most recent write to a file
(`to_csv` overwrites), `[]` if the file does not exist. -/
def readCsv (files : Files) (n : FileName) : List Dict :=
  (alookup files n).getD []

/-- Lines 484-487: `pd.concat(map(pd.read_csv, batch_files))` — read
every recorded batch file back and concatenate in list order. -/
def consolidate (files : Files) (batchFiles : List FileName) : List Dict :=
  (batchFiles.map (readCsv files)).flatten

/-- Ghost trace of the observable actions of one crawl run. -/
inductive Event where
  /-- The list-view fetch of page `index` (line 372). -/
  | fetchPage (index : Nat)
  /-- One call of `extract_listing_details` for url `u`, with the value
  of the `attempts` counter at the time of the call (line 418). -/
  | attempt (page : Nat) (u : Value) (attempts : Nat)
  /-- The soft-block cooldown `time.sleep(wait_time)` (line 446). -/
  | cooldown (seconds : Nat)
  /-- One of the randomized politeness delays `time.sleep(randint(3, 8))`. -/
  | politeness
  /-- Giving the listing up after exhausting the retries (line 449). -/
  | giveUp (page : Nat) (u : Value)
  /-- Writing the records of one batch to a csv file (lines 461/473). -/
  | flush (page : Nat) (file : FileName) (records : List Dict)
deriving DecidableEq, Repr

/-- The oracles abstracting the Selenium / filesystem I/O. -/
structure Env where
  /-- The summaries `extract()` yields on list page `i` (after
  `to_dict("records")`). -/
  discover : Nat → List Dict
  /-- The dictionary `extract_listing_details` yields for detail url
  `u` on the `n`-th attempt of the retry loop. -/
  details : Value → Nat → Dict
  /-- Whether the list-view fetch of page `i` raises a fatal
  (uncaught) webdriver exception. -/
  pageFatal : Nat → Bool
  /-- Whether the detail fetch for url `u` on attempt `n` raises a
  fatal (uncaught) webdriver exception. -/
  detailFatal : Value → Nat → Bool
  /-- Whether `to_csv` on this file raises `PermissionError`
  (the file is open in another program, line 468). -/
  locked : FileName → Bool

/-- No fetch in the run raises a fatal exception. -/
def noFatal (env : Env) : Prop :=
  (∀ i, env.pageFatal i = false) ∧ ∀ u n, env.detailFatal u n = false

/-- Result of the per-listing retry loop (lines 412-452). -/
inductive EnrichOut where
  /-- An uncaught exception escaped from the detail fetch. -/
  | fatal
  /-- `max_retries` attempts all yielded an empty dictionary; the
  listing is given up and contributes no record. -/
  | failed
  /-- Some attempt yielded a non-empty dictionary; `merged` is the
  `\x7b**listing, **details\x7d` record appended to `all_data`. -/
  | succeeded (merged : Dict)
deriving DecidableEq, Repr

/-- The key under which a summary stores its detail-page url. -/
def urlKey : String := "url"

/-- Lines 406-452: the `while attempts < max_retries and not success`
retry loop for one listing.  `attempts` is the Python counter; `fuel`
is `3 - attempts`, making the recursion structural.  On failure the
counter is incremented and, if retries remain, a `60 * attempts`
cooldown is slept before the next attempt; on the third failure the
listing is given up after a politeness delay only. -/
def enrichLoop (env : Env) (page : Nat) (listing : Dict) (u : Value) :
    Nat → Nat → EnrichOut × List Event
  | _, 0 => (.failed, [])
  | attempts, fuel + 1 =>
    if env.detailFatal u attempts then (.fatal, [])
    else if env.details u attempts = [] then
      if attempts + 1 < 3 then
        let r := enrichLoop env page listing u (attempts + 1) fuel
        (r.1, .attempt page u attempts :: .cooldown (60 * (attempts + 1)) :: r.2)
      else
        (.failed, [.attempt page u attempts, .giveUp page u, .politeness])
    else
      (.succeeded (mergeRecord listing (env.details u attempts)),
        [.attempt page u attempts, .politeness])

/-- Lines 399-452: the `for listing in listings` loop of one page.
A listing whose `url` is falsy is skipped (`continue`, line 404);
otherwise the retry loop runs and a successful merge is appended to
`all_data` (`acc`).  The first component is `none` when a fatal
exception escaped; the second is the events of this page in order. -/
def processListings (env : Env) (page : Nat) :
    List Dict → List Dict → Option (List Dict) × List Event
  | [], acc => (some acc, [])
  | listing :: rest, acc =>
    match dlookup listing urlKey with
    | none => processListings env page rest acc
    | some u =>
      if vtruthy u then
        match enrichLoop env page listing u 0 3 with
        | (.fatal, evs) => (none, evs)
        | (.failed, evs) =>
          let r := processListings env page rest acc
          (r.1, evs ++ r.2)
        | (.succeeded rec1, evs) =>
          let r := processListings env page rest (acc ++ [rec1])
          (r.1, evs ++ r.2)
      else processListings env page rest acc

/-- The mutable state of one `scrape_multiple_pages` run. -/
structure St where
  /-- `all_data`: records collected and not yet flushed. -/
  allData : List Dict
  /-- The csv files on disk (including any pre-existing ones). -/
  files : Files
  /-- `batch_files`: the file names recorded for consolidation. -/
  batchFiles : List FileName
  /-- The ghost event trace. -/
  events : List Event
deriving DecidableEq, Repr

/-- Lines 454-478: the per-page flush.  Nothing happens when
`all_data` is empty.  Otherwise the batch is written to
`page{index}.csv`; only if that write raises `PermissionError` is the
alternative name `page{index}_alt.csv` used, and in that fallback
branch `all_data` is *not* reset (faithful to the code). -/
def flushStep (env : Env) (index : Nat) (st : St) : St :=
  if st.allData = [] then st
  else if env.locked (primaryName index) then
    { st with
      files := st.files ++ [(altName index, st.allData)]
      batchFiles := st.batchFiles ++ [altName index]
      events := st.events ++ [.flush index (altName index) st.allData] }
  else
    { st with
      allData := []
      files := st.files ++ [(primaryName index, st.allData)]
      batchFiles := st.batchFiles ++ [primaryName index]
      events := st.events ++ [.flush index (primaryName index) st.allData] }

/-- Lines 369-482: the `for index in range(start, stop)` page loop.
`fuel` is `stop - index`.  A page whose `extract()` result is empty
breaks out of the loop; a fatal fetch exception aborts the whole call
(second component `true`). -/
def crawlGo (env : Env) : Nat → Nat → St → St × Bool
  | _, 0, st => (st, false)
  | index, fuel + 1, st =>
    let st0 : St := { st with events := st.events ++ [.fetchPage index] }
    if env.pageFatal index then (st0, true)
    else if env.discover index = [] then (st0, false)
    else
      let r := processListings env index (env.discover index) st.allData
      let st1 : St := { st0 with events := st0.events ++ [.politeness] ++ r.2 }
      match r.1 with
      | none => (st1, true)
      | some newAll =>
        let st2 := flushStep env index { st1 with allData := newAll }
        crawlGo env (index + 1) fuel { st2 with events := st2.events ++ [.politeness] }

/-- Lines 325-490: `Scraper.scrape_multiple_pages`.  `init` is the
disk state before the run.  The first component is the returned
DataFrame as a record list (`none` when a fatal exception propagated
to the caller instead of a return); the second is the final state. -/
def scrape_multiple_pages (env : Env) (init : Files) (start stop : Nat) :
    Option (List Dict) × St :=
  let r := crawlGo env start (stop - start) ⟨[], init, [], []⟩
  if r.2 then (none, r.1)
  else if r.1.batchFiles.isEmpty then (some [], r.1)
  else (some (consolidate r.1.files r.1.batchFiles), r.1)

/-! ### Phase 1: `extract` (lines 122-177) -/

/-- One `div.list-view-content` container on a list-view page, as the
outcome of the four element lookups the code performs on it:
`cardLink` is the `href` of `a.card-link` (`none` when the anchor is
missing, line 156), the rest are the `_safe_find_text` results. -/
structure Container where
  cardLink : Option String
  title : Option String
  price : Option String
  location : Option String
deriving DecidableEq, Repr

/-- A `_safe_find_text` result stored into a dict (`None` when absent). -/
def optV : Option String → Value
  | none => .vnone
  | some s => .vstr s

/-- `url.split("/")[-1]` (line 161). -/
def lastSegment (url : String) : String := (url.splitOn "/").getLastD ""

/-- Building one summary dict (lines 160-166).  When `url` is `None`,
`url.split("/")` raises `AttributeError`; the `none` result models the
exception escaping to the page-level handler. -/
def buildListing (c : Container) : Option Dict :=
  match c.cardLink with
  | none => none
  | some url =>
    some [("listing_id", .vstr (lastSegment url)),
          ("title", optV c.title),
          ("price", optV c.price),
          ("location", optV c.location),
          (urlKey, .vstr url)]

/-- The `for listing in listings` loop of `extract`; an exception in
any iteration discards everything and yields the empty DataFrame
(lines 173-177). -/
def extractGo : List Container → List Dict → List Dict
  | [], acc => acc
  | c :: rest, acc =>
    match buildListing c with
    | none => []
    | some d => extractGo rest (acc ++ [d])

/-- Lines 122-177: `Scraper.extract`, from the list of listing
containers found on the current page to the summary records. -/
def extract (cs : List Container) : List Dict := extractGo cs []

/-! ### Phase 2: `extract_listing_details` (lines 179-323) -/

/-- One `li.spec-item` on a detail page, as the outcomes of the
element lookups performed on it: the `.txt` label, the `.value-txt`
text, the `a` text, and the raw `item.text`. -/
structure SpecItem where
  txt : Option String
  valueTxt : Option String
  aTag : Option String
  rawText : String
deriving DecidableEq, Repr

/-- Python truthiness of an optional string (`if not value:`). -/
def strTruthy : Option String → Bool
  | none => false
  | some s => s != ""

/-- Python `a or b` on optional strings: the first operand when it is
truthy, otherwise the second. -/
def pyOr (a b : Option String) : Option String :=
  if strTruthy a then a else b

/-- Lines 225-255: the label-to-column `KEY_MAPPING` table. -/
def KEY_MAPPING : String → Option String := fun rawKey =>
  if rawKey = "İlan no" then some "listing_id"
  else if rawKey = "Son Güncelleme" then some "last_updated"
  else if rawKey = "İlan Durumu" then some "listing_type"
  else if rawKey = "Konut Tipi" then some "property_type"
  else if rawKey = "Konut Şekli" then some "housing_form"
  else if rawKey = "Oda Sayısı" then some "room_count"
  else if rawKey = "Banyo Sayısı" then some "bathroom_count"
  else if rawKey = "Brüt / Net M2" then some "m2_info"
  else if rawKey = "Kat Sayısı" then some "total_floors"
  else if rawKey = "Bulunduğu Kat" then some "floor_location"
  else if rawKey = "Isınma Tipi" then some "heating_type"
  else if rawKey = "Eşya Durumu" then some "is_furnished"
  else if rawKey = "Cephe" then some "facade"
  else if rawKey = "Bina Yaşı" then some "building_age"
  else if rawKey = "Krediye Uygunluk" then some "credit_eligibility"
  else if rawKey = "Krediye Uygunlu..." then some "credit_eligibility"
  else if rawKey = "Tapu Durumu" then some "title_deed_status"
  else if rawKey = "Takas" then some "swap_available"
  else none

/-- Lines 266-316: processing one `li.spec-item`, updating the
`listing_details` dictionary. -/
def processItem (acc : Dict) (it : SpecItem) : Dict :=
  match it.txt with
  | none => acc
  | some rawKey =>
    if rawKey = "" then acc
    else
      match KEY_MAPPING rawKey with
      | none => acc
      | some dbKey =>
        let v0 := pyOr it.valueTxt it.aTag
        let value :=
          if strTruthy v0 then v0
          else
            let fullText := it.rawText.trim
            if fullText ≠ "" then some ((fullText.replace rawKey "").trim)
            else v0
        match value with
        | none => acc
        | some s =>
          if s = "" then acc
          else if dbKey = "m2_info" && s.contains '/' then
            match s.splitOn "/" with
            | [a, b] =>
              acc ++ [("m2_gross", .vstr ((a.replace "m2" "").trim)),
                      ("m2_net", .vstr ((b.replace "m2" "").trim))]
            | _ => acc
          else if dbKey = "is_furnished" then
            acc ++ [("is_furnished", .vbool (s == "Eşyalı"))]
          else acc ++ [(dbKey, .vstr s)]

/-- Lines 260-323: the pure extraction core of
`extract_listing_details` — the fold of `processItem` over the
`li.spec-item`s found on the detail page. -/
def extract_listing_details (items : List SpecItem) : Dict :=
  items.foldl processItem []

/-! ### Trace observers -/

/-- The list-view page indices fetched, in order. -/
def fetchedPages (evs : List Event) : List Nat :=
  evs.filterMap fun e =>
    match e with
    | .fetchPage i => some i
    | _ => none

/-- The page an event works on (detail attempt, give-up or flush);
`none` for fetches and sleeps. -/
def workPage : Event → Option Nat
  | .attempt p _ _ => some p
  | .giveUp p _ => some p
  | .flush p _ _ => some p
  | _ => none

/-- The record lists of the flushed batches, in flush order. -/
def flushContents (evs : List Event) : List (List Dict) :=
  evs.filterMap fun e =>
    match e with
    | .flush _ _ recs => some recs
    | _ => none

/-! ### Lookup lemmas -/

theorem alookup_append {κ α : Type} [DecidableEq κ] (a b : List (κ × α)) (k : κ) :
    alookup (a ++ b) k = (alookup b k).or (alookup a k) := by
  induction a with
  | nil => simp [alookup]
  | cons hd tl ih =>
    obtain ⟨k1, v⟩ := hd
    have h1 : alookup (((k1, v) :: tl) ++ b) k
        = (alookup (tl ++ b) k).or (if k1 = k then some v else none) := rfl
    rw [h1, ih, Option.or_assoc]
    rfl

theorem dlookup_append (a b : Dict) (k : String) :
    dlookup (a ++ b) k = (dlookup b k).or (dlookup a k) := by
  simp [dlookup, alookup_append]

theorem dlookup_single_self (k : String) (v : Value) :
    dlookup [(k, v)] k = some v := by
  simp [dlookup, alookup]

theorem readCsv_append_self (files : Files) (n : FileName) (c : List Dict) :
    readCsv (files ++ [(n, c)]) n = c := by
  simp [readCsv, alookup_append, alookup]

theorem readCsv_append_ne (files : Files) (n m : FileName) (c : List Dict)
    (h : m ≠ n) : readCsv (files ++ [(n, c)]) m = readCsv files m := by
  have h2 : n ≠ m := Ne.symm h
  simp [readCsv, alookup_append, alookup, h2]

/-! ### C3: merge semantics -/

/-- C3: For every summary map and every detail map, the merged record
`\x7b**listing, **details\x7d` is the key-union of the two; on a key present
in both the detail value wins, and a key present on only one side keeps
that side's value; merging `\x7burl: "a", price: "100"\x7d` with
`\x7bprice: "120"\x7d` yields `\x7burl: "a", price: "120"\x7d`. -/
theorem merge_is_key_union_detail_wins :
    (∀ (s d : Dict) (k : String),
        dlookup (mergeRecord s d) k = (dlookup d k).or (dlookup s k)) ∧
    (∀ (s d : Dict) (k : String),
        (dlookup (mergeRecord s d) k).isSome
          = ((dlookup s k).isSome || (dlookup d k).isSome)) ∧
    (∀ k, dlookup (mergeRecord [(urlKey, .vstr "a"), ("price", .vstr "100")]
            [("price", .vstr "120")]) k
          = dlookup [(urlKey, .vstr "a"), ("price", .vstr "120")] k) := by
  refine ⟨fun s d k => dlookup_append s d k, fun s d k => ?_, fun k => ?_⟩
  · rw [mergeRecord, dlookup_append]
    cases dlookup d k <;> cases dlookup s k <;> simp
  · by_cases h1 : "price" = k <;> by_cases h2 : urlKey = k <;>
      simp [mergeRecord, dlookup, alookup, h1, h2]

/-! ### C10: the detail page's "İlan no" overrides the summary id -/

/-- C10: whenever the processed detail record carries a `listing_id`
(in particular when a spec item is labelled "İlan no" with a non-empty
value), the merged record's `listing_id` is the detail-page value,
replacing the summary's URL-derived `listing_id`. -/
theorem detail_ilan_no_overrides_listing_id :
    (∀ (summary : Dict) (items : List SpecItem) (v : Value),
        dlookup (extract_listing_details items) "listing_id" = some v →
        dlookup (mergeRecord summary (extract_listing_details items)) "listing_id"
          = some v) ∧
    (∀ (pre : List SpecItem) (w : String), w ≠ "" →
        dlookup (extract_listing_details
            (pre ++ [⟨some "İlan no", some w, none, ""⟩])) "listing_id"
          = some (.vstr w)) := by
  constructor
  · intro summary items v hv
    rw [mergeRecord, dlookup_append, hv]
    rfl
  · intro pre w hw
    have hb : (w != "") = true := by simp [hw]
    have hstep : extract_listing_details (pre ++ [⟨some "İlan no", some w, none, ""⟩])
        = (extract_listing_details pre) ++ [("listing_id", .vstr w)] := by
      rw [extract_listing_details, List.foldl_append]
      simp [extract_listing_details, processItem, KEY_MAPPING, pyOr, strTruthy, hb, hw]
    rw [hstep, dlookup_append, dlookup_single_self]
    rfl

/-- Witness for C10 at a concrete summary and detail page: the
URL-derived id "123" is replaced by the native "İlan no" value "999". -/
theorem detail_ilan_no_overrides_listing_id_witness :
    dlookup (mergeRecord [("listing_id", .vstr "123")]
        (extract_listing_details [⟨some "İlan no", some "999", none, ""⟩]))
      "listing_id" = some (.vstr "999") :=
  detail_ilan_no_overrides_listing_id.1 [("listing_id", .vstr "123")]
    [⟨some "İlan no", some "999", none, ""⟩] (.vstr "999") (by decide)

/-! ### C2: retry cooldowns and give-up -/

/-- C2: with `max_retries = 3`, three consecutive empty enrichment
results for one listing produce exactly the attempts 0, 1, 2 with a
60-second cooldown before attempt 1 and a 120-second cooldown before
attempt 2 (`60 * attempts`); after the third failure the listing is
given up with no further cooldown, contributes no record, and the loop
continues with the next listing unchanged. -/
theorem retry_cooldowns_60_120_then_give_up (env : Env) (page : Nat)
    (listing : Dict) (u : Value)
    (h0 : env.details u 0 = []) (h1 : env.details u 1 = [])
    (h2 : env.details u 2 = [])
    (hf : ∀ n, env.detailFatal u n = false) :
    enrichLoop env page listing u 0 3 =
      (.failed,
        [.attempt page u 0, .cooldown 60, .attempt page u 1, .cooldown 120,
         .attempt page u 2, .giveUp page u, .politeness]) ∧
    (∀ (rest acc : List Dict), dlookup listing urlKey = some u →
        vtruthy u = true →
        processListings env page (listing :: rest) acc =
          ((processListings env page rest acc).1,
            [.attempt page u 0, .cooldown 60, .attempt page u 1, .cooldown 120,
             .attempt page u 2, .giveUp page u, .politeness]
              ++ (processListings env page rest acc).2)) := by
  have e0 : enrichLoop env page listing u 0 3 =
      (.failed, [.attempt page u 0, .cooldown 60, .attempt page u 1,
        .cooldown 120, .attempt page u 2, .giveUp page u, .politeness]) := by
    simp [enrichLoop, hf, h0, h1, h2]
  refine ⟨e0, fun rest acc hu ht => ?_⟩
  simp [processListings, hu, ht, e0]

/-- Environment for the C2 witness: every detail fetch of url "u"
yields no fields, and no fetch is fatal. -/
def envC2 : Env where
  discover := fun _ => []
  details := fun _ _ => []
  pageFatal := fun _ => false
  detailFatal := fun _ _ => false
  locked := fun _ => false

/-- Witness for C2: the concrete trace of a listing whose three
attempts all fail. -/
theorem retry_cooldowns_60_120_then_give_up_witness :
    enrichLoop envC2 1 [] (.vstr "u") 0 3 =
      (.failed,
        [.attempt 1 (.vstr "u") 0, .cooldown 60, .attempt 1 (.vstr "u") 1,
         .cooldown 120, .attempt 1 (.vstr "u") 2, .giveUp 1 (.vstr "u"),
         .politeness]) :=
  (retry_cooldowns_60_120_then_give_up envC2 1 [] (.vstr "u") rfl rfl rfl
    (fun n => rfl)).1

/-! ### C4: what happens on a batch-name collision -/

/-- Environment for the C4 counterexample: one listing on page 1,
enrichment succeeds first try, no file is locked. -/
def envC4 : Env where
  discover := fun i =>
    if i = 1 then [[(urlKey, .vstr "u"), ("listing_id", .vstr "42")]] else []
  details := fun _ _ => [("price", .vstr "120")]
  pageFatal := fun _ => false
  detailFatal := fun _ _ => false
  locked := fun _ => false

/-- A batch left on disk by a previous run under the name the new run
will choose for page 1. -/
def oldBatch : List Dict := [[("old", .vstr "x")]]

/-- Disk state before the C4 counterexample run: `page1.csv` exists. -/
def initC4 : Files := [(primaryName 1, oldBatch)]

/-- C4 counterexample: the sink already holds a batch under the
identifier chosen for page 1 and the file is not locked; the run
overwrites it silently (its content is no longer the old batch) and
records the primary name, never falling back to the alternate
identifier.  The fallback happens only on `PermissionError`, not on a
name collision. -/
theorem flush_overwrites_existing_unlocked_file :
    readCsv initC4 (primaryName 1) = oldBatch ∧
    readCsv (scrape_multiple_pages envC4 initC4 1 2).2.files (primaryName 1)
      ≠ oldBatch ∧
    (scrape_multiple_pages envC4 initC4 1 2).2.batchFiles = [primaryName 1] ∧
    altName 1 ∉ (scrape_multiple_pages envC4 initC4 1 2).2.batchFiles := by
  decide

/-- C4 (amended): the alternate identifier is used exactly when the
write of the primary file raises `PermissionError` (the file is open
in another program); in that case the primary file's prior content is
untouched.  When the primary file is not locked the batch is written
under the primary name even if the sink already holds a file of that
name, silently overwriting it. -/
theorem flush_falls_back_only_on_permission_error (env : Env) (index : Nat)
    (st : St) (hne : st.allData ≠ []) :
    (env.locked (primaryName index) = true →
        (flushStep env index st).files = st.files ++ [(altName index, st.allData)] ∧
        (flushStep env index st).batchFiles = st.batchFiles ++ [altName index] ∧
        readCsv (flushStep env index st).files (primaryName index)
          = readCsv st.files (primaryName index)) ∧
    (env.locked (primaryName index) = false →
        (flushStep env index st).files = st.files ++ [(primaryName index, st.allData)] ∧
        (flushStep env index st).batchFiles = st.batchFiles ++ [primaryName index] ∧
        readCsv (flushStep env index st).files (primaryName index) = st.allData) := by
  constructor
  · intro hl
    have hni : primaryName index ≠ altName index := by simp [primaryName, altName]
    simp [flushStep, hne, hl, readCsv_append_ne _ _ _ _ hni]
  · intro hl
    simp [flushStep, hne, hl, readCsv_append_self]

/-- Environment for the C4 witness: `page1.csv` is locked. -/
def envC4w : Env where
  discover := fun _ => []
  details := fun _ _ => []
  pageFatal := fun _ => false
  detailFatal := fun _ _ => false
  locked := fun n => n == primaryName 1

/-- A buffer state with one collected record, no files yet. -/
def stC4w : St := ⟨[[("a", .vstr "1")]], [], [], []⟩

/-- Witness for the amended C4 at a locked primary file. -/
theorem flush_falls_back_only_on_permission_error_witness :
    (flushStep envC4w 1 stC4w).files = stC4w.files ++ [(altName 1, stC4w.allData)] ∧
    (flushStep envC4w 1 stC4w).batchFiles = stC4w.batchFiles ++ [altName 1] ∧
    readCsv (flushStep envC4w 1 stC4w).files (primaryName 1)
      = readCsv stC4w.files (primaryName 1) :=
  (flush_falls_back_only_on_permission_error envC4w 1 stC4w (by decide)).1 (by decide)

/-! ### C5: is a batch flushed for every non-empty page? -/

/-- Environment for the C5 counterexample: page 1 discovers one
listing whose enrichment always fails; page 2 is empty. -/
def envC5 : Env where
  discover := fun i => if i = 1 then [[(urlKey, .vstr "u1")]] else []
  details := fun _ _ => []
  pageFatal := fun _ => false
  detailFatal := fun _ _ => false
  locked := fun _ => false

/-- C5 counterexample: page 1's discover result is non-empty, but its
only listing is given up, so `all_data` is empty at the page boundary
and no batch at all is flushed for the page (the flush is guarded by
`if all_data:`); the claimed empty batch never reaches the sink. -/
theorem page_with_all_give_ups_flushes_no_batch :
    envC5.discover 1 ≠ [] ∧
    (scrape_multiple_pages envC5 [] 1 2).1 = some [] ∧
    (scrape_multiple_pages envC5 [] 1 2).2.batchFiles = [] ∧
    flushContents (scrape_multiple_pages envC5 [] 1 2).2.events = [] := by
  decide

/-- C5 (amended): at a page boundary a batch is flushed if and only if
the collected-records buffer is non-empty; a page on which every item
was skipped or given up leaves the buffer empty and flushes nothing,
the failed items contributing no record. -/
theorem flush_occurs_iff_buffer_nonempty (env : Env) (index : Nat) (st : St) :
    (st.allData = [] → flushStep env index st = st) ∧
    (st.allData ≠ [] →
      ∃ n : FileName, n.page = index ∧
        (flushStep env index st).batchFiles = st.batchFiles ++ [n] ∧
        (flushStep env index st).events
          = st.events ++ [.flush index n st.allData]) := by
  constructor
  · intro h
    simp [flushStep, h]
  · intro h
    by_cases hl : env.locked (primaryName index)
    · exact ⟨altName index, rfl, by simp [flushStep, h, hl], by simp [flushStep, h, hl]⟩
    · exact ⟨primaryName index, rfl, by simp [flushStep, h, hl], by simp [flushStep, h, hl]⟩

/-- Environment for the C5 witness (nothing locked, nothing fatal). -/
def envC5w : Env where
  discover := fun _ => []
  details := fun _ _ => []
  pageFatal := fun _ => false
  detailFatal := fun _ _ => false
  locked := fun _ => false

/-- A buffer state with one collected record. -/
def stC5w : St := ⟨[[("b", .vstr "2")]], [], [], []⟩

/-- Witness for the amended C5: a non-empty buffer is flushed. -/
theorem flush_occurs_iff_buffer_nonempty_witness :
    ∃ n : FileName, n.page = 1 ∧
      (flushStep envC5w 1 stC5w).batchFiles = stC5w.batchFiles ++ [n] ∧
      (flushStep envC5w 1 stC5w).events
        = stC5w.events ++ [.flush 1 n stC5w.allData] :=
  (flush_occurs_iff_buffer_nonempty envC5w 1 stC5w).2 (by decide)

/-! ### Classification of the events emitted while processing one page -/

/-- The shapes of events the listing loop of one page can emit. -/
def pageLocal (page : Nat) (e : Event) : Prop :=
  (∃ u n, e = .attempt page u n) ∨ (∃ s, e = .cooldown s) ∨
    e = .politeness ∨ ∃ u, e = .giveUp page u

theorem enrichLoop_events_pageLocal (env : Env) (page : Nat) (listing : Dict)
    (u : Value) :
    ∀ fuel attempts, ∀ e ∈ (enrichLoop env page listing u attempts fuel).2,
      pageLocal page e := by
  intro fuel
  induction fuel with
  | zero =>
    intro attempts e he
    simp [enrichLoop] at he
  | succ fuel ih =>
    intro attempts e he
    by_cases hf : env.detailFatal u attempts
    · simp [enrichLoop, hf] at he
    · by_cases hd : env.details u attempts = []
      · by_cases ha : attempts + 1 < 3
        · simp [enrichLoop, hf, hd, ha] at he
          rcases he with rfl | rfl | he
          · exact Or.inl ⟨u, attempts, rfl⟩
          · exact Or.inr (Or.inl ⟨60 * (attempts + 1), rfl⟩)
          · exact ih (attempts + 1) e he
        · simp [enrichLoop, hf, hd, ha] at he
          rcases he with rfl | rfl | rfl
          · exact Or.inl ⟨u, attempts, rfl⟩
          · exact Or.inr (Or.inr (Or.inr ⟨u, rfl⟩))
          · exact Or.inr (Or.inr (Or.inl rfl))
      · simp [enrichLoop, hf, hd] at he
        rcases he with rfl | rfl
        · exact Or.inl ⟨u, attempts, rfl⟩
        · exact Or.inr (Or.inr (Or.inl rfl))

theorem enrichLoop_ne_fatal (env : Env) (page : Nat) (listing : Dict)
    (u : Value) (hf : ∀ n, env.detailFatal u n = false) :
    ∀ fuel attempts, (enrichLoop env page listing u attempts fuel).1 ≠ .fatal := by
  intro fuel
  induction fuel with
  | zero =>
    intro attempts h
    simp [enrichLoop] at h
  | succ fuel ih =>
    intro attempts h
    by_cases hd : env.details u attempts = []
    · by_cases ha : attempts + 1 < 3
      · simp [enrichLoop, hf attempts, hd, ha] at h
        exact ih (attempts + 1) h
      · simp [enrichLoop, hf attempts, hd, ha] at h
    · simp [enrichLoop, hf attempts, hd] at h

theorem processListings_events_pageLocal (env : Env) (page : Nat) :
    ∀ (ls acc : List Dict), ∀ e ∈ (processListings env page ls acc).2,
      pageLocal page e := by
  intro ls
  induction ls with
  | nil =>
    intro acc e he
    simp [processListings] at he
  | cons listing rest ih =>
    intro acc e he
    cases hd : dlookup listing urlKey with
    | none =>
      rw [processListings, hd] at he
      exact ih acc e he
    | some u =>
      by_cases ht : vtruthy u
      · rcases hEq : enrichLoop env page listing u 0 3 with ⟨out, evs⟩
        have hevs : ∀ x ∈ evs, pageLocal page x := by
          intro x hx
          apply enrichLoop_events_pageLocal env page listing u 3 0
          rw [hEq]
          exact hx
        cases out with
        | fatal =>
          simp [processListings, hd, ht, hEq] at he
          exact hevs e he
        | failed =>
          simp [processListings, hd, ht, hEq] at he
          rcases he with he | he
          · exact hevs e he
          · exact ih acc e he
        | succeeded rec1 =>
          simp [processListings, hd, ht, hEq] at he
          rcases he with he | he
          · exact hevs e he
          · exact ih (acc ++ [rec1]) e he
      · simp only [processListings, hd] at he
        rw [if_neg ht] at he
        exact ih acc e he

theorem processListings_fst_isSome (env : Env) (page : Nat)
    (hf : ∀ u n, env.detailFatal u n = false) :
    ∀ (ls acc : List Dict),
      ∃ acc2, (processListings env page ls acc).1 = some acc2 := by
  intro ls
  induction ls with
  | nil =>
    intro acc
    exact ⟨acc, rfl⟩
  | cons listing rest ih =>
    intro acc
    cases hd : dlookup listing urlKey with
    | none =>
      rw [processListings, hd]
      exact ih acc
    | some u =>
      by_cases ht : vtruthy u
      · rcases hEq : enrichLoop env page listing u 0 3 with ⟨out, evs⟩
        cases out with
        | fatal =>
          exact absurd (congrArg Prod.fst hEq)
            (enrichLoop_ne_fatal env page listing u (hf u) 3 0)
        | failed =>
          obtain ⟨a2, h2⟩ := ih acc
          exact ⟨a2, by simp [processListings, hd, ht, hEq, h2]⟩
        | succeeded rec1 =>
          obtain ⟨a2, h2⟩ := ih (acc ++ [rec1])
          exact ⟨a2, by simp [processListings, hd, ht, hEq, h2]⟩
      · simp only [processListings, hd]
        rw [if_neg ht]
        exact ih acc

theorem pageLocal_fetchedPages (page : Nat) (evs : List Event)
    (h : ∀ e ∈ evs, pageLocal page e) : fetchedPages evs = [] := by
  induction evs with
  | nil => rfl
  | cons e rest ih =>
    have hrest := ih fun x hx => h x (List.mem_cons_of_mem e hx)
    rcases h e (List.mem_cons_self e rest) with ⟨u, n, rfl⟩ | ⟨s, rfl⟩ | rfl | ⟨u, rfl⟩ <;>
      simpa [fetchedPages, List.filterMap_cons] using hrest

theorem pageLocal_flushContents (page : Nat) (evs : List Event)
    (h : ∀ e ∈ evs, pageLocal page e) : flushContents evs = [] := by
  induction evs with
  | nil => rfl
  | cons e rest ih =>
    have hrest := ih fun x hx => h x (List.mem_cons_of_mem e hx)
    rcases h e (List.mem_cons_self e rest) with ⟨u, n, rfl⟩ | ⟨s, rfl⟩ | rfl | ⟨u, rfl⟩ <;>
      simpa [flushContents, List.filterMap_cons] using hrest

theorem pageLocal_workPage (page : Nat) (evs : List Event)
    (h : ∀ e ∈ evs, pageLocal page e) :
    ∀ e ∈ evs, ∀ p, workPage e = some p → p = page := by
  intro e he p hw
  rcases h e he with ⟨u, n, rfl⟩ | ⟨s, rfl⟩ | rfl | ⟨u, rfl⟩ <;>
    simp [workPage] at hw <;> omega

theorem flushStep_events_shape (env : Env) (index : Nat) (s : St) :
    ∃ fevs, (flushStep env index s).events = s.events ++ fevs ∧
      fetchedPages fevs = [] ∧
      ∀ e ∈ fevs, ∀ p, workPage e = some p → p = index := by
  by_cases h : s.allData = []
  · refine ⟨[], by simp [flushStep, h], rfl, by simp⟩
  · by_cases hl : env.locked (primaryName index)
    · refine ⟨[.flush index (altName index) s.allData],
        by simp [flushStep, h, hl], rfl, ?_⟩
      intro e he p hw
      simp at he
      subst he
      simp [workPage] at hw
      omega
    · refine ⟨[.flush index (primaryName index) s.allData],
        by simp [flushStep, h, hl], rfl, ?_⟩
      intro e he p hw
      simp at he
      subst he
      simp [workPage] at hw
      omega

theorem crawlGo_stops (env : Env) (hnf : noFatal env) :
    ∀ (fuel index j : Nat) (st : St),
      index ≤ j → j < index + fuel →
      (∀ i, index ≤ i → i < j → env.discover i ≠ []) →
      env.discover j = [] →
      ∃ newEvs,
        (crawlGo env index fuel st).1.events = st.events ++ newEvs ∧
        (crawlGo env index fuel st).2 = false ∧
        fetchedPages newEvs = List.range' index (j + 1 - index) ∧
        ∀ e ∈ newEvs, ∀ p, workPage e = some p → index ≤ p ∧ p < j := by
  intro fuel
  induction fuel with
  | zero =>
    intro index j st h1 h2 _ _
    omega
  | succ fuel ih =>
    intro index j st h1 h2 hne hj
    by_cases hij : index = j
    · subst hij
      refine ⟨[.fetchPage index], by simp [crawlGo, hnf.1 index, hj],
        by simp [crawlGo, hnf.1 index, hj], ?_, ?_⟩
      · have hn : index + 1 - index = 1 := by omega
        rw [hn]
        rfl
      · intro e he p hw
        simp at he
        subst he
        simp [workPage] at hw
    · have hlt : index < j := by omega
      have hne0 : env.discover index ≠ [] := hne index le_rfl hlt
      rcases hEq : processListings env index (env.discover index) st.allData
        with ⟨res, evs⟩
      obtain ⟨acc2, hacc⟩ :=
        processListings_fst_isSome env index hnf.2 (env.discover index) st.allData
      rw [hEq] at hacc
      have hres : res = some acc2 := hacc
      subst hres
      have hevs : ∀ x ∈ evs, pageLocal index x := by
        intro x hx
        apply processListings_events_pageLocal env index (env.discover index) st.allData
        rw [hEq]
        exact hx
      -- the state after this page's flush, before the politeness delay
      obtain ⟨fevs, hfe, hff, hfw⟩ :=
        flushStep_events_shape env index
          { allData := acc2, files := st.files, batchFiles := st.batchFiles
            events := (st.events ++ [.fetchPage index]) ++ [.politeness] ++ evs }
      have hstep : crawlGo env index (fuel + 1) st =
          crawlGo env (index + 1) fuel
            { flushStep env index
                { allData := acc2, files := st.files, batchFiles := st.batchFiles
                  events := (st.events ++ [.fetchPage index]) ++ [.politeness] ++ evs }
              with events :=
                (flushStep env index
                  { allData := acc2, files := st.files, batchFiles := st.batchFiles
                    events := (st.events ++ [.fetchPage index]) ++ [.politeness] ++ evs }).events
                ++ [.politeness] } := by
        simp [crawlGo, hnf.1 index, hne0, hEq]
      obtain ⟨newEvs2, hev2, hfa2, hfp2, hwk2⟩ :=
        ih (index + 1) j
          { flushStep env index
              { allData := acc2, files := st.files, batchFiles := st.batchFiles
                events := (st.events ++ [.fetchPage index]) ++ [.politeness] ++ evs }
            with events :=
              (flushStep env index
                { allData := acc2, files := st.files, batchFiles := st.batchFiles
                  events := (st.events ++ [.fetchPage index]) ++ [.politeness] ++ evs }).events
              ++ [.politeness] }
          (by omega) (by omega) (fun i hi1 hi2 => hne i (by omega) hi2) hj
      refine ⟨[.fetchPage index] ++ [.politeness] ++ evs ++ fevs ++ [.politeness] ++ newEvs2,
        ?_, ?_, ?_, ?_⟩
      · rw [hstep, hev2]
        simp only [List.append_assoc, List.singleton_append, List.cons_append,
          List.nil_append] at hfe ⊢
        rw [hfe]
        simp
      · rw [hstep, hfa2]
      · have hn1 : j + 1 - index = (j - index) + 1 := by omega
        have hn2 : j + 1 - (index + 1) = j - index := by omega
        rw [hn1, List.range'_succ]
        simp only [fetchedPages] at hfp2 ⊢
        rw [List.filterMap_append, List.filterMap_append, List.filterMap_append,
          List.filterMap_append, List.filterMap_append]
        rw [hfp2, hn2]
        have hz1 : List.filterMap (fun e =>
            match e with | .fetchPage i => some i | _ => none) evs = [] :=
          pageLocal_fetchedPages index evs hevs
        have hz2 : List.filterMap (fun e =>
            match e with | .fetchPage i => some i | _ => none) fevs = [] := hff
        rw [hz1, hz2]
        rfl
      · intro e he p hw
        simp only [List.append_assoc, List.mem_append, List.mem_singleton] at he
        rcases he with rfl | rfl | he | he | rfl | he
        · simp [workPage] at hw
        · simp [workPage] at hw
        · have := pageLocal_workPage index evs hevs e he p hw
          omega
        · have := hfw e he p hw
          omega
        · simp [workPage] at hw
        · have := hwk2 e he p hw
          omega

theorem scrape_snd (env : Env) (init : Files) (start stop : Nat) :
    (scrape_multiple_pages env init start stop).2
      = (crawlGo env start (stop - start) ⟨[], init, [], []⟩).1 := by
  rw [scrape_multiple_pages]
  split
  · rfl
  · split <;> rfl

/-! ### C1: pages are visited in increasing order, stopping at the
first empty discover result -/

/-- C1: for a crawl over `[start, stop)` with no fatal fetch, if `j`
is the first page in the range whose discover result is empty, then
the pages fetched are exactly `start, start+1, ..., j`, in strictly
increasing order, and every detail attempt, give-up and flush concerns
a page strictly before `j`: nothing after the first empty page is
visited, enriched or flushed, even though later pages lie within the
configured range. -/
theorem crawl_visits_increasing_and_stops_at_first_empty (env : Env)
    (init : Files) (start stop j : Nat) (hnf : noFatal env)
    (h1 : start ≤ j) (h2 : j < stop)
    (hne : ∀ i, start ≤ i → i < j → env.discover i ≠ [])
    (hemp : env.discover j = []) :
    fetchedPages (scrape_multiple_pages env init start stop).2.events
        = List.range' start (j + 1 - start) ∧
    List.Pairwise (· < ·)
      (fetchedPages (scrape_multiple_pages env init start stop).2.events) ∧
    ∀ e ∈ (scrape_multiple_pages env init start stop).2.events,
      ∀ p, workPage e = some p → start ≤ p ∧ p < j := by
  obtain ⟨newEvs, hev, _, hfp, hwk⟩ :=
    crawlGo_stops env hnf (stop - start) start j ⟨[], init, [], []⟩
      h1 (by omega) hne hemp
  rw [scrape_snd, hev]
  simp only [List.nil_append]
  refine ⟨hfp, ?_, hwk⟩
  rw [hfp]
  exact List.pairwise_lt_range' start (j + 1 - start)

/-- Environment for the C1 witness: pages 1 and 2 discover one
listing each (enriched in one attempt), page 3 is empty, pages 4 and 5
would again have data but are past the first empty page. -/
def envC1 : Env where
  discover := fun i =>
    if i = 3 then [] else [[(urlKey, .vstr "u"), ("listing_id", .vstr "42")]]
  details := fun _ _ => [("price", .vstr "9")]
  pageFatal := fun _ => false
  detailFatal := fun _ _ => false
  locked := fun _ => false

/-- Witness for C1: over the range `[1, 6)` with page 3 empty, the
fetched pages are exactly `[1, 2, 3]`. -/
theorem crawl_visits_increasing_and_stops_at_first_empty_witness :
    fetchedPages (scrape_multiple_pages envC1 [] 1 6).2.events
      = List.range' 1 (3 + 1 - 1) :=
  (crawl_visits_increasing_and_stops_at_first_empty envC1 [] 1 6 3
    ⟨fun i => rfl, fun u n => rfl⟩ (by omega) (by omega)
    (fun i hi1 hi2 => by interval_cases i <;> decide) (by decide)).1

/-! ### C9: a missing card-link anchor empties the whole page -/

theorem extractGo_bad (cs : List Container) (h : ∃ c ∈ cs, c.cardLink = none) :
    ∀ acc, extractGo cs acc = [] := by
  induction cs with
  | nil =>
    rcases h with ⟨c, hc, _⟩
    simp at hc
  | cons c rest ih =>
    intro acc
    rcases h with ⟨c2, hc2, hnone⟩
    rcases List.mem_cons.mp hc2 with rfl | hc2
    · simp [extractGo, buildListing, hnone]
    · cases hb : buildListing c with
      | none => simp [extractGo, hb]
      | some d =>
        simp only [extractGo, hb]
        exact ih ⟨c2, hc2, hnone⟩ _

/-- C9: if any listing container on a list-view page lacks its
`a.card-link` anchor (its url is `None`), then `extract()` of the
whole page yields the empty DataFrame — building `listing_id` from the
`None` url raises and the page-level handler returns empty — and a
crawl whose discover result for page `j` is that extraction stops at
page `j`: the fetched pages are exactly `start..j`. -/
theorem missing_card_link_empties_page_and_stops_crawl
    (cs : List Container) (hbad : ∃ c ∈ cs, c.cardLink = none) :
    extract cs = [] ∧
    ∀ (env : Env) (init : Files) (start stop j : Nat), noFatal env →
      start ≤ j → j < stop → env.discover j = extract cs →
      (∀ i, start ≤ i → i < j → env.discover i ≠ []) →
      fetchedPages (scrape_multiple_pages env init start stop).2.events
        = List.range' start (j + 1 - start) := by
  have hext : extract cs = [] := extractGo_bad cs hbad []
  refine ⟨hext, fun env init start stop j hnf hj1 hj2 hdisc hne => ?_⟩
  obtain ⟨newEvs, hev, _, hfp, _⟩ :=
    crawlGo_stops env hnf (stop - start) start j ⟨[], init, [], []⟩ hj1
      (by omega) hne (by rw [hdisc, hext])
  rw [scrape_snd, hev]
  simpa using hfp

/-- Containers for the C9 witness: the second `div.list-view-content`
has no `a.card-link` anchor. -/
def csC9 : List Container :=
  [⟨some "a/b/1", some "t", some "100", some "loc"⟩, ⟨none, some "t2", none, none⟩]

/-- Environment for the C9 witness: page 2's extraction is the empty
result of `extract csC9`; earlier pages have one enrichable listing. -/
def envC9 : Env where
  discover := fun i =>
    if i = 2 then [] else [[(urlKey, .vstr "u"), ("listing_id", .vstr "7")]]
  details := fun _ _ => [("a", .vstr "1")]
  pageFatal := fun _ => false
  detailFatal := fun _ _ => false
  locked := fun _ => false

/-- Witness for C9 at a concrete page with a broken container. -/
theorem missing_card_link_empties_page_and_stops_crawl_witness :
    extract csC9 = [] ∧
    fetchedPages (scrape_multiple_pages envC9 [] 1 5).2.events
      = List.range' 1 (2 + 1 - 1) := by
  refine ⟨(missing_card_link_empties_page_and_stops_crawl csC9 (by decide)).1, ?_⟩
  exact (missing_card_link_empties_page_and_stops_crawl csC9 (by decide)).2
    envC9 [] 1 5 2 ⟨fun i => rfl, fun u n => rfl⟩ (by omega) (by omega)
    (by decide) (fun i h1 h2 => by interval_cases i; decide)

/-! ### The consolidation invariant -/

theorem flushContents_append (a b : List Event) :
    flushContents (a ++ b) = flushContents a ++ flushContents b :=
  List.filterMap_append a b _

theorem consolidate_snoc (files : Files) (bfs : List FileName) (nm : FileName)
    (D : List Dict) (hb : ∀ n ∈ bfs, n ≠ nm) :
    consolidate (files ++ [(nm, D)]) (bfs ++ [nm])
      = consolidate files bfs ++ D := by
  rw [consolidate, consolidate, List.map_append, List.flatten_append]
  congr 1
  · congr 1
    apply List.map_congr_left
    intro n hn
    exact readCsv_append_ne files nm n D (hb n hn)
  · simp [readCsv_append_self]

theorem flushStep_consolidate (env : Env) (index : Nat) (s : St)
    (hb : ∀ n ∈ s.batchFiles, n.page < index)
    (hc : consolidate s.files s.batchFiles = (flushContents s.events).flatten) :
    (∀ n ∈ (flushStep env index s).batchFiles, n.page < index + 1) ∧
    consolidate (flushStep env index s).files (flushStep env index s).batchFiles
      = (flushContents (flushStep env index s).events).flatten := by
  by_cases h : s.allData = []
  · rw [flushStep, if_pos h]
    exact ⟨fun n hn => Nat.lt_succ_of_lt (hb n hn), hc⟩
  · have hmain : ∀ nm : FileName, nm.page = index →
        (∀ n ∈ s.batchFiles ++ [nm], n.page < index + 1) ∧
        consolidate (s.files ++ [(nm, s.allData)]) (s.batchFiles ++ [nm])
          = (flushContents (s.events ++ [.flush index nm s.allData])).flatten := by
      intro nm hnm
      constructor
      · intro n hn
        rcases List.mem_append.mp hn with hn | hn
        · exact Nat.lt_succ_of_lt (hb n hn)
        · simp at hn
          subst hn
          omega
      · rw [consolidate_snoc s.files s.batchFiles nm s.allData
            (fun n hn heq => by have := hb n hn; rw [heq, hnm] at this; omega),
          hc, flushContents_append]
        simp [flushContents]
    by_cases hl : env.locked (primaryName index)
    · rw [flushStep, if_neg h, if_pos hl]
      exact hmain (altName index) rfl
    · rw [flushStep, if_neg h, if_neg hl]
      exact hmain (primaryName index) rfl

theorem flushContents_fetchPage (i : Nat) :
    flushContents [Event.fetchPage i] = [] := rfl

theorem flushContents_politeness :
    flushContents [Event.politeness] = [] := rfl

theorem crawlGo_consolidate_inv (env : Env) :
    ∀ (fuel index : Nat) (st : St),
      (∀ n ∈ st.batchFiles, n.page < index) →
      consolidate st.files st.batchFiles = (flushContents st.events).flatten →
      (∀ n ∈ (crawlGo env index fuel st).1.batchFiles, n.page < index + fuel) ∧
      consolidate (crawlGo env index fuel st).1.files
          (crawlGo env index fuel st).1.batchFiles
        = (flushContents (crawlGo env index fuel st).1.events).flatten := by
  intro fuel
  induction fuel with
  | zero =>
    intro index st hb hc
    exact ⟨fun n hn => by simpa using hb n hn, hc⟩
  | succ fuel ih =>
    intro index st hb hc
    by_cases hpf : env.pageFatal index
    · have hstep : crawlGo env index (fuel + 1) st =
          ({ st with events := st.events ++ [.fetchPage index] }, true) := by
        simp [crawlGo, hpf]
      rw [hstep]
      refine ⟨fun n hn => by have := hb n hn; omega, ?_⟩
      rw [flushContents_append, flushContents_fetchPage]
      simpa using hc
    · by_cases hde : env.discover index = []
      · have hstep : crawlGo env index (fuel + 1) st =
            ({ st with events := st.events ++ [.fetchPage index] }, false) := by
          simp [crawlGo, hpf, hde]
        rw [hstep]
        refine ⟨fun n hn => by have := hb n hn; omega, ?_⟩
        rw [flushContents_append, flushContents_fetchPage]
        simpa using hc
      · rcases hEq : processListings env index (env.discover index) st.allData
          with ⟨res, evs⟩
        have hevs : ∀ x ∈ evs, pageLocal index x := by
          intro x hx
          apply processListings_events_pageLocal env index (env.discover index) st.allData
          rw [hEq]
          exact hx
        have hfevs : flushContents evs = [] := pageLocal_flushContents index evs hevs
        have hcext : consolidate st.files st.batchFiles
            = (flushContents ((st.events ++ [.fetchPage index])
                ++ [.politeness] ++ evs)).flatten := by
          rw [flushContents_append, flushContents_append, flushContents_append,
            flushContents_fetchPage, flushContents_politeness, hfevs]
          simpa using hc
        cases res with
        | none =>
          have hstep : crawlGo env index (fuel + 1) st =
              ({ st with events := (st.events ++ [.fetchPage index])
                  ++ [.politeness] ++ evs }, true) := by
            simp [crawlGo, hpf, hde, hEq]
          rw [hstep]
          exact ⟨fun n hn => by have := hb n hn; omega, hcext⟩
        | some newAll =>
          obtain ⟨hb2, hc2⟩ := flushStep_consolidate env index
            (St.mk newAll st.files st.batchFiles
              ((st.events ++ [.fetchPage index]) ++ [.politeness] ++ evs))
            hb hcext
          have hstep : crawlGo env index (fuel + 1) st =
              crawlGo env (index + 1) fuel
                { flushStep env index
                    (St.mk newAll st.files st.batchFiles
                      ((st.events ++ [.fetchPage index]) ++ [.politeness] ++ evs))
                  with events :=
                    (flushStep env index
                      (St.mk newAll st.files st.batchFiles
                        ((st.events ++ [.fetchPage index]) ++ [.politeness] ++ evs))).events
                    ++ [.politeness] } := by
            simp [crawlGo, hpf, hde, hEq]
          rw [hstep]
          obtain ⟨hb3, hc3⟩ := ih (index + 1)
            { flushStep env index
                (St.mk newAll st.files st.batchFiles
                  ((st.events ++ [.fetchPage index]) ++ [.politeness] ++ evs))
              with events :=
                (flushStep env index
                  (St.mk newAll st.files st.batchFiles
                    ((st.events ++ [.fetchPage index]) ++ [.politeness] ++ evs))).events
                ++ [.politeness] }
            hb2
            (by rw [flushContents_append, flushContents_politeness]
                simpa using hc2)
          exact ⟨fun n hn => by have := hb3 n hn; omega, hc3⟩

theorem crawlGo_no_fatal (env : Env) (hnf : noFatal env) :
    ∀ (fuel index : Nat) (st : St), (crawlGo env index fuel st).2 = false := by
  intro fuel
  induction fuel with
  | zero =>
    intro index st
    rfl
  | succ fuel ih =>
    intro index st
    by_cases hde : env.discover index = []
    · simp [crawlGo, hnf.1 index, hde]
    · rcases hEq : processListings env index (env.discover index) st.allData
        with ⟨res, evs⟩
      obtain ⟨acc2, hacc⟩ :=
        processListings_fst_isSome env index hnf.2 (env.discover index) st.allData
      rw [hEq] at hacc
      have hres : res = some acc2 := hacc
      subst hres
      simp [crawlGo, hnf.1 index, hde, hEq]
      exact ih _ _

theorem scrape_fst_no_fatal (env : Env) (init : Files) (start stop : Nat)
    (hfat : (crawlGo env start (stop - start) ⟨[], init, [], []⟩).2 = false) :
    (scrape_multiple_pages env init start stop).1
      = if (crawlGo env start (stop - start) ⟨[], init, [], []⟩).1.batchFiles = []
        then some []
        else some (consolidate
          (crawlGo env start (stop - start) ⟨[], init, [], []⟩).1.files
          (crawlGo env start (stop - start) ⟨[], init, [], []⟩).1.batchFiles) := by
  rw [scrape_multiple_pages]
  by_cases hbe : (crawlGo env start (stop - start)
      ⟨[], init, [], []⟩).1.batchFiles = []
  · simp [hfat, hbe]
  · simp [hfat, hbe]

/-! ### C6: consolidation returns exactly the flushed batches -/

/-- C6: in a run with no fatal fetch, the returned dataset is exactly
the concatenation, in flush (= page) order, of the batches flushed
during the run; if no batch was flushed the result is the empty
dataset, not a failure; and reading back three batches of sizes 2, 0
and 3 concatenates to a dataset of length 5 in order. -/
theorem consolidate_concats_flushed_batches (env : Env) (init : Files)
    (start stop : Nat) (hnf : noFatal env) :
    ((scrape_multiple_pages env init start stop).1
        = some ((flushContents
            (scrape_multiple_pages env init start stop).2.events).flatten)) ∧
    ((scrape_multiple_pages env init start stop).2.batchFiles = [] →
        (scrape_multiple_pages env init start stop).1 = some []) ∧
    ∀ (files : Files) (a b c : FileName),
      (readCsv files a).length = 2 → (readCsv files b).length = 0 →
      (readCsv files c).length = 3 →
      (consolidate files [a, b, c]).length = 5 := by
  have hfat := crawlGo_no_fatal env hnf (stop - start) start ⟨[], init, [], []⟩
  obtain ⟨_, hcons⟩ := crawlGo_consolidate_inv env (stop - start) start
    ⟨[], init, [], []⟩ (by simp) (by simp [consolidate, flushContents])
  refine ⟨?_, ?_, ?_⟩
  · rw [scrape_snd, scrape_fst_no_fatal env init start stop hfat]
    by_cases hbe : (crawlGo env start (stop - start)
        ⟨[], init, [], []⟩).1.batchFiles = []
    · rw [if_pos hbe]
      rw [hbe] at hcons
      have hz : (flushContents
          (crawlGo env start (stop - start) ⟨[], init, [], []⟩).1.events).flatten
          = [] := by
        rw [← hcons]
        simp [consolidate]
      rw [hz]
    · rw [if_neg hbe, hcons]
  · intro hbf
    rw [scrape_snd] at hbf
    rw [scrape_fst_no_fatal env init start stop hfat, if_pos hbf]
  · intro files a b c h2 h0 h3
    simp [consolidate, h2, h0, h3]

/-- Environment for the C6 witness: pages 1 and 2 each flush one
record, page 3 is empty. -/
def envC6 : Env where
  discover := fun i =>
    if i ≤ 2 then [[(urlKey, .vstr "u"), ("listing_id", .vstr "1")]] else []
  details := fun _ _ => [("price", .vstr "5")]
  pageFatal := fun _ => false
  detailFatal := fun _ _ => false
  locked := fun _ => false

/-- Witness for C6 on a concrete fatal-free run. -/
theorem consolidate_concats_flushed_batches_witness :
    (scrape_multiple_pages envC6 [] 1 5).1
      = some ((flushContents
          (scrape_multiple_pages envC6 [] 1 5).2.events).flatten) :=
  (consolidate_concats_flushed_batches envC6 [] 1 5
    ⟨fun i => rfl, fun u n => rfl⟩).1

/-! ### C7: flushed batches survive a fatal failure -/

/-- C7: when the crawl is terminated by a fatal capability failure
(the call raises instead of returning, first component `none`),
consolidating what the sink holds still yields exactly the batches
flushed before the failure, in order: no flushed page is discarded by
the failure. -/
theorem flushed_batches_survive_fatal_failure (env : Env) (init : Files)
    (start stop : Nat)
    (hfatal : (scrape_multiple_pages env init start stop).1 = none) :
    consolidate (scrape_multiple_pages env init start stop).2.files
        (scrape_multiple_pages env init start stop).2.batchFiles
      = (flushContents
          (scrape_multiple_pages env init start stop).2.events).flatten := by
  obtain ⟨_, hcons⟩ := crawlGo_consolidate_inv env (stop - start) start
    ⟨[], init, [], []⟩ (by simp) (by simp [consolidate, flushContents])
  rw [scrape_snd]
  exact hcons

/-- Environment for the C7 witness: page 1 flushes one record, the
fetch of page 2 loses the browser session. -/
def envC7 : Env where
  discover := fun _ => [[(urlKey, .vstr "u"), ("listing_id", .vstr "1")]]
  details := fun _ _ => [("price", .vstr "7")]
  pageFatal := fun i => i == 2
  detailFatal := fun _ _ => false
  locked := fun _ => false

/-- Witness for C7 on a concrete run that dies on page 2. -/
theorem flushed_batches_survive_fatal_failure_witness :
    consolidate (scrape_multiple_pages envC7 [] 1 9).2.files
        (scrape_multiple_pages envC7 [] 1 9).2.batchFiles
      = (flushContents (scrape_multiple_pages envC7 [] 1 9).2.events).flatten :=
  flushed_batches_survive_fatal_failure envC7 [] 1 9 (by decide)

/-! ### C8: a summary without a url is excluded entirely -/

/-- C8: a discovered summary whose `url` is missing or falsy is
skipped by the listing loop without any enrichment attempt and without
contributing any record: processing a page with it is literally equal
(same collected records, same events, same outcome) to processing the
page without it, wherever it occurs in the page's listing sequence. -/
theorem summary_without_url_excluded (env : Env) (page : Nat) (l : Dict)
    (h : truthy (dlookup l urlKey) = false) :
    ∀ (pre post acc : List Dict),
      processListings env page (pre ++ l :: post) acc
        = processListings env page (pre ++ post) acc := by
  intro pre
  induction pre with
  | nil =>
    intro post acc
    simp only [List.nil_append]
    cases hd : dlookup l urlKey with
    | none => rw [processListings, hd]
    | some u =>
      have ht : vtruthy u = false := by simpa [truthy, hd] using h
      simp only [processListings, hd]
      rw [if_neg (by simp [ht])]
  | cons x pre ih =>
    intro post acc
    simp only [List.cons_append]
    cases hd : dlookup x urlKey with
    | none =>
      simp only [processListings, hd]
      exact ih post acc
    | some u =>
      by_cases ht : vtruthy u
      · rcases hEq : enrichLoop env page x u 0 3 with ⟨out, evs⟩
        cases out <;> simp [processListings, hd, ht, hEq, ih]
      · simp only [processListings, hd]
        rw [if_neg ht, if_neg ht]
        exact ih post acc

/-- Environment for the C8 witness. -/
def envC8 : Env where
  discover := fun _ => []
  details := fun _ _ => [("a", .vstr "1")]
  pageFatal := fun _ => false
  detailFatal := fun _ _ => false
  locked := fun _ => false

/-- A summary whose url is `None`. -/
def badSummary : Dict := [("listing_id", .vstr "x"), (urlKey, .vnone)]

/-- Witness for C8: processing a page consisting of just the bad
summary equals processing the empty page. -/
theorem summary_without_url_excluded_witness :
    processListings envC8 1 ([] ++ badSummary :: []) []
      = processListings envC8 1 ([] ++ []) [] :=
  summary_without_url_excluded envC8 1 badSummary (by decide) [] [] []
